import Mathlib

/-!
Shallow embedding of the rps-ai-frontend image-preprocessing, detection-client
and overlay-rendering logic from `src/App.jsx`, together with theorems checking
the natural-language specification against it.

Conventions:
* An RGBA pixel of a canvas `ImageData` buffer is a `Pixel` (four `Nat`
  channels, each 0..255 in the real program).  The flat `data` array indexed by
  `i, i+1, i+2, i+3` steps of the JS code is modelled as a `List Pixel`
  indexed by pixel number `i / 4`.
* JS `Math.abs(a - b)` on channel values is `Int.natAbs` of the integer
  difference.
* Fallible / asynchronous network code is modelled by an explicit outcome type
  (`FetchOutcome`) and pure state-update functions.
-/

/-- An RGBA pixel: one group of four consecutive entries of an `ImageData.data`
array. -/
structure Pixel where
  r : Nat
  g : Nat
  b : Nat
  a : Nat
deriving DecidableEq, Repr

/-- `const BACKGROUND_THRESHOLD = 30` (App.jsx line 7). -/
def BACKGROUND_THRESHOLD : Nat := 30

/-- `const EDGE_GRADIENT_THRESHOLD = 20` (App.jsx line 8). -/
def EDGE_GRADIENT_THRESHOLD : Nat := 20

/-- The white foreground pixel written by both preprocessors (255,255,255,255). -/
def whitePixel : Pixel := ⟨255, 255, 255, 255⟩

/-- The black background pixel written by both preprocessors (0,0,0,255). -/
def blackPixel : Pixel := ⟨0, 0, 0, 255⟩

/-- `Math.abs(current[i] - background[i])` on two channel values. -/
def chanDiff (x y : Nat) : Nat := ((x : Int) - (y : Int)).natAbs

/-- `const maxDiff = Math.max(diffR, Math.max? ...)` — the JS code computes
`Math.max(diffR, diffG, diffB)` (App.jsx line 28). -/
def maxChannelDiff (c q : Pixel) : Nat :=
  max (chanDiff c.r q.r) (max (chanDiff c.g q.g) (chanDiff c.b q.b))

/-- Per-pixel body of the `applyBackgroundSubtraction` loop
(App.jsx lines 23-41): white when the max channel difference exceeds the
threshold, black otherwise; alpha forced to 255 in both branches. -/
def bgSubPixel (c q : Pixel) : Pixel :=
  if BACKGROUND_THRESHOLD < maxChannelDiff c q then whitePixel else blackPixel

/-- `applyBackgroundSubtraction` (App.jsx lines 18-44): the loop walks the two
flat RGBA arrays in lock step, four entries (one pixel) at a time, rewriting
the current frame in place.  On the pixel view this is a pointwise map over
the zipped rasters. -/
def applyBackgroundSubtraction (current background : List Pixel) : List Pixel :=
  List.zipWith bgSubPixel current background

/-- C1: every output pixel of background subtraction is binary (each colour
channel 0 or 255, alpha 255), white exactly when the max channel difference
exceeds 30, black otherwise. -/
theorem bg_subtraction_binary_mask (cur bg : List Pixel) (i : Nat) (p c q : Pixel)
    (hp : (applyBackgroundSubtraction cur bg)[i]? = some p)
    (hc : cur[i]? = some c) (hq : bg[i]? = some q) :
    p.a = 255 ∧ (p.r = 0 ∨ p.r = 255) ∧ (p.g = 0 ∨ p.g = 255) ∧ (p.b = 0 ∨ p.b = 255) ∧
      (p = whitePixel ↔ 30 < maxChannelDiff c q) ∧
      (p = blackPixel ↔ ¬ 30 < maxChannelDiff c q) := by
  rw [applyBackgroundSubtraction, List.getElem?_zipWith_eq_some] at hp
  obtain ⟨x, y, hx, hy, hxy⟩ := hp
  rw [hc] at hx
  rw [hq] at hy
  cases hx
  cases hy
  subst hxy
  unfold bgSubPixel BACKGROUND_THRESHOLD
  by_cases h : 30 < maxChannelDiff c q
  · simp [h, whitePixel, blackPixel]
  · simp [h, whitePixel, blackPixel]

/-- Witness for C1: a concrete one-pixel pair where the difference exceeds the
threshold, evaluated through the theorem. -/
theorem bg_subtraction_binary_mask_witness :
    (applyBackgroundSubtraction [⟨100, 0, 0, 7⟩] [⟨0, 0, 0, 9⟩])[0]? = some whitePixel ∧
      whitePixel.a = 255 ∧ (whitePixel = whitePixel ↔
        30 < maxChannelDiff ⟨100, 0, 0, 7⟩ ⟨0, 0, 0, 9⟩) := by
  refine ⟨by decide, ?_, ?_⟩
  · exact (bg_subtraction_binary_mask [⟨100, 0, 0, 7⟩] [⟨0, 0, 0, 9⟩] 0 whitePixel
      ⟨100, 0, 0, 7⟩ ⟨0, 0, 0, 9⟩ (by decide) (by decide) (by decide)).1
  · exact (bg_subtraction_binary_mask [⟨100, 0, 0, 7⟩] [⟨0, 0, 0, 9⟩] 0 whitePixel
      ⟨100, 0, 0, 7⟩ ⟨0, 0, 0, 9⟩ (by decide) (by decide) (by decide)).2.2.2.2.1

/-- The per-pixel background-subtraction rule only depends on the absolute
channel differences, which are symmetric in the two pixels. -/
theorem bgSubPixel_comm (c q : Pixel) : bgSubPixel c q = bgSubPixel q c := by
  have habs : ∀ x y : Nat, chanDiff x y = chanDiff y x := by
    intro x y
    unfold chanDiff
    omega
  unfold bgSubPixel maxChannelDiff
  rw [habs c.r q.r, habs c.g q.g, habs c.b q.b]

/-- C6: background subtraction is symmetric in its two raster inputs — swapping
the current frame and the stored background yields the identical mask. -/
theorem bg_subtraction_symmetric (A B : List Pixel) :
    applyBackgroundSubtraction A B = applyBackgroundSubtraction B A := by
  unfold applyBackgroundSubtraction
  exact List.zipWith_comm_of_comm bgSubPixel bgSubPixel_comm A B

/-- First pass of `processImageToBWMask` (App.jsx lines 52-55):
`grayscale[i/4] = Math.round(0.299*R + 0.587*G + 0.114*B)`.  On channel values
the rounded luma equals the floor of `(299R + 587G + 114B + 500) / 1000`
(round-half-up, as `Math.round` for non-negative arguments). -/
def grayOf (p : Pixel) : Nat := (299 * p.r + 587 * p.g + 114 * p.b + 500) / 1000

/-- The claim-side grayscale formula, written literally:
`round(0.299R + 0.587G + 0.114B)` over exact rationals. -/
def lumaRound (p : Pixel) : Int :=
  round ((299 * p.r + 587 * p.g + 114 * p.b : ℚ) / 1000)

/-- The source's rounded luma agrees with the exact-rational rounding of
`0.299R + 0.587G + 0.114B`. -/
theorem lumaRound_eq_grayOf (p : Pixel) : lumaRound p = grayOf p := by
  unfold lumaRound grayOf
  set s : Nat := 299 * p.r + 587 * p.g + 114 * p.b with hs
  rw [round_eq]
  have h0 : (299 * (p.r : ℚ) + 587 * (p.g : ℚ) + 114 * (p.b : ℚ)) = (s : ℚ) := by
    rw [hs]
    push_cast
    ring
  rw [h0]
  have h1 : (s : ℚ) / 1000 + 1 / 2 =
      (((2 * s + 1000 : ℕ) : ℤ) : ℚ) / ((2000 : ℕ) : ℚ) := by
    push_cast
    ring
  rw [h1, Rat.floor_intCast_div_natCast]
  rw [show ((2 * s + 1000 : ℕ) : ℤ) / ((2000 : ℕ) : ℤ) = (((2 * s + 1000) / 2000 : ℕ) : ℤ) from
    (Int.ofNat_div _ _).symm]
  norm_cast
  omega

/-- Skin heuristic (App.jsx line 72):
`r > 60 && g > 40 && b > 20 && r > g && r > b && Math.abs(r - g) > 15`. -/
def isSkinLike (p : Pixel) : Bool :=
  decide (60 < p.r) && decide (40 < p.g) && decide (20 < p.b) &&
    decide (p.g < p.r) && decide (p.b < p.r) &&
    decide (15 < ((p.r : Int) - (p.g : Int)).natAbs)

/-- Gradient test of `processImageToBWMask` (App.jsx lines 64-66, 75):
`gx = grayscale[idx+1] - grayscale[idx-1]`, `gy = grayscale[idx+width] -
grayscale[idx-width]`, foreground when `Math.sqrt(gx*gx + gy*gy) > 20`.
For integer `gx`, `gy` the square root exceeds 20 exactly when
`gx*gx + gy*gy > 400` (`sqrt_gt_20_iff` below), which is the executable form
used here. -/
def gradExceeds (gs : List Nat) (w idx : Nat) : Bool :=
  let gx : Int := (gs.getD (idx + 1) 0 : Int) - (gs.getD (idx - 1) 0 : Int)
  let gy : Int := (gs.getD (idx + w) 0 : Int) - (gs.getD (idx - w) 0 : Int)
  decide ((400 : Int) < gx * gx + gy * gy)

/-- Body of the interior loop of `processImageToBWMask` (App.jsx lines 63-86):
the value written over pixel `idx`, given the grayscale buffer and the pixel's
current (original) channels: white when the gradient test or the skin test
fires, black otherwise, alpha 255. -/
def maskWrite (gs : List Nat) (w idx : Nat) (p : Pixel) : Pixel :=
  if gradExceeds gs w idx || isSkinLike p then whitePixel else blackPixel

/-- One iteration of the interior loop: read the pixel at `idx` from the
buffer being mutated, compute the white/black value, store it back
(`List.set`, like a typed-array store, is a no-op out of range). -/
def maskStep (gs : List Nat) (w : Nat) (acc : List Pixel) (idx : Nat) : List Pixel :=
  acc.set idx (maskWrite gs w idx (acc.getD idx blackPixel))

/-- The flat indices `idx = y*width + x` visited by the nested loops
`for (y = 1; y < height-1)` / `for (x = 1; x < width-1)` (App.jsx lines 58-59),
in visit order. -/
def interiorIndices (w h : Nat) : List Nat :=
  (List.range (h - 2)).flatMap fun y =>
    (List.range (w - 2)).map fun x => (y + 1) * w + (x + 1)

/-- `processImageToBWMask` (App.jsx lines 47-91): precompute the grayscale
buffer from the original raster, then run the interior loop over the raster
in place. -/
def processImageToBWMask (w h : Nat) (data : List Pixel) : List Pixel :=
  (interiorIndices w h).foldl (maskStep (data.map grayOf) w) data

/-- A loop iteration leaves every other position of the buffer unchanged. -/
theorem maskStep_getElem?_ne (gs : List Nat) (w : Nat) (acc : List Pixel)
    (i j : Nat) (hij : i ≠ j) : (maskStep gs w acc i)[j]? = acc[j]? := by
  unfold maskStep
  exact List.getElem?_set_ne hij

/-- A loop iteration rewrites its own position with the white/black value
computed from the pixel found there. -/
theorem maskStep_getElem?_self (gs : List Nat) (w : Nat) (acc : List Pixel)
    (j : Nat) : (maskStep gs w acc j)[j]? = (acc[j]?).map (maskWrite gs w j) := by
  unfold maskStep
  rw [List.getElem?_set_self']
  cases h : acc[j]? with
  | none => simp
  | some p => simp [List.getD_eq_getElem?_getD, h]

/-- Positions not visited by the loop keep their original contents. -/
theorem foldl_maskStep_not_mem (gs : List Nat) (w : Nat) :
    ∀ (L : List Nat) (acc : List Pixel) (j : Nat), j ∉ L →
      (L.foldl (maskStep gs w) acc)[j]? = acc[j]? := by
  intro L
  induction L with
  | nil => intro acc j _; rfl
  | cons i L ih =>
    intro acc j hj
    rw [List.foldl_cons, ih _ j (fun h => hj (List.mem_cons_of_mem i h)),
      maskStep_getElem?_ne gs w acc i j (fun h => hj (h ▸ List.mem_cons_self i L))]

/-- A position visited exactly once by the loop ends up holding the white/black
value computed from its original contents. -/
theorem foldl_maskStep_mem (gs : List Nat) (w : Nat) :
    ∀ (L : List Nat) (acc : List Pixel), L.Nodup → ∀ j ∈ L,
      (L.foldl (maskStep gs w) acc)[j]? = (acc[j]?).map (maskWrite gs w j) := by
  intro L
  induction L with
  | nil => intro acc _ j hj; cases hj
  | cons i L ih =>
    intro acc hnd j hj
    rw [List.foldl_cons]
    rcases List.mem_cons.1 hj with h | h
    · subst h
      have hni : j ∉ L := (List.nodup_cons.1 hnd).1
      rw [foldl_maskStep_not_mem gs w L _ j hni, maskStep_getElem?_self]
    · have hij : i ≠ j := by
        intro he
        exact (List.nodup_cons.1 hnd).1 (he ▸ h)
      rw [ih _ (List.nodup_cons.1 hnd).2 j h, maskStep_getElem?_ne gs w acc i j hij]

/-- Flat raster indices decompose uniquely into coordinates when the column is
in range. -/
theorem interior_encode_eq {w y1 x1 y2 x2 : Nat} (h1 : x1 < w) (h2 : x2 < w)
    (he : y1 * w + x1 = y2 * w + x2) : x1 = x2 ∧ y1 = y2 := by
  have hm1 : (y1 * w + x1) % w = x1 := by
    rw [Nat.add_comm, Nat.add_mul_mod_self_right]
    exact Nat.mod_eq_of_lt h1
  have hm2 : (y2 * w + x2) % w = x2 := by
    rw [Nat.add_comm, Nat.add_mul_mod_self_right]
    exact Nat.mod_eq_of_lt h2
  have hx : x1 = x2 := by rw [← hm1, he, hm2]
  refine ⟨hx, ?_⟩
  subst hx
  have hmul : y1 * w = y2 * w := by omega
  exact Nat.eq_of_mul_eq_mul_right (by omega) hmul

/-- The loop visits exactly the flat indices of interior coordinates. -/
theorem mem_interiorIndices (w h idx : Nat) :
    idx ∈ interiorIndices w h ↔
      ∃ x y, 1 ≤ x ∧ x < w - 1 ∧ 1 ≤ y ∧ y < h - 1 ∧ idx = y * w + x := by
  unfold interiorIndices
  simp only [List.mem_flatMap, List.mem_map, List.mem_range]
  constructor
  · rintro ⟨y, hy, x, hx, rfl⟩
    exact ⟨x + 1, y + 1, by omega, by omega, by omega, by omega, rfl⟩
  · rintro ⟨x, y, hx1, hx2, hy1, hy2, rfl⟩
    refine ⟨y - 1, by omega, x - 1, by omega, ?_⟩
    have e1 : y - 1 + 1 = y := by omega
    have e2 : x - 1 + 1 = x := by omega
    rw [e1, e2]

/-- The loop visits each interior index exactly once. -/
theorem nodup_interiorIndices (w h : Nat) : (interiorIndices w h).Nodup := by
  unfold interiorIndices
  rw [List.nodup_flatMap]
  constructor
  · intro y _
    refine List.Nodup.map ?_ (List.nodup_range _)
    intro a b hab
    have := Nat.add_left_cancel hab
    omega
  · refine (List.pairwise_lt_range _).imp ?_
    intro y1 y2 hlt idx hidx1 hidx2
    simp only [List.mem_map, List.mem_range] at hidx1 hidx2
    obtain ⟨x1, hx1, he1⟩ := hidx1
    obtain ⟨x2, hx2, he2⟩ := hidx2
    have he := he1.trans he2.symm
    have := interior_encode_eq (show x1 + 1 < w by omega) (show x2 + 1 < w by omega) he
    omega

/-- The skin rule exactly as the specification words it:
`R>60 ∧ G>40 ∧ B>20 ∧ R>G ∧ R>B ∧ (R−G)>15`. -/
def skinSpec (c : Pixel) : Prop :=
  60 < c.r ∧ 40 < c.g ∧ 20 < c.b ∧ c.g < c.r ∧ c.b < c.r ∧ 15 < c.r - c.g

instance (c : Pixel) : Decidable (skinSpec c) := by
  unfold skinSpec
  infer_instance

/-- The source's boolean skin test agrees with the specification's rule. -/
theorem isSkinLike_iff (c : Pixel) : isSkinLike c = true ↔ skinSpec c := by
  unfold isSkinLike skinSpec
  simp only [Bool.and_eq_true, decide_eq_true_eq]
  omega

/-- For integer gradients, `Math.sqrt(gx² + gy²) > 20` is the same as
`gx² + gy² > 400`. -/
theorem sqrt_gt_20_iff (gx gy : Int) :
    ((20 : ℝ) < Real.sqrt ((gx : ℝ) ^ 2 + (gy : ℝ) ^ 2)) ↔
      (400 : Int) < gx * gx + gy * gy := by
  rw [Real.lt_sqrt (by norm_num : (0 : ℝ) ≤ 20)]
  rw [show (20 : ℝ) ^ 2 = ((400 : Int) : ℝ) by norm_num]
  rw [show (gx : ℝ) ^ 2 + (gy : ℝ) ^ 2 = ((gx * gx + gy * gy : Int) : ℝ) by push_cast; ring]
  exact Int.cast_lt

/-- Interior coordinates stay strictly inside the raster, with a row of slack. -/
theorem interior_idx_lt {w h x y : Nat} (hx2 : x < w - 1) (hy2 : y < h - 1) :
    y * w + x + w < w * h := by
  have hxw : x < w := by omega
  have hh : y + 2 ≤ h := by omega
  calc y * w + x + w = (y + 1) * w + x := by ring
    _ < (y + 1) * w + w := Nat.add_lt_add_left hxw _
    _ = (y + 2) * w := by ring
    _ ≤ h * w := Nat.mul_le_mul_right w hh
    _ = w * h := Nat.mul_comm h w

/-- Reading the grayscale buffer at an in-range index is the luma of the
corresponding original pixel. -/
theorem getD_map_grayOf (l : List Pixel) (j : Nat) (hj : j < l.length) :
    (l.map grayOf).getD j 0 = grayOf (l.getD j blackPixel) := by
  rw [List.getD_eq_getElem?_getD, List.getD_eq_getElem?_getD, List.getElem?_map,
    List.getElem?_eq_getElem hj]
  rfl

/-- Characterisation of the mask at an interior pixel: white exactly when the
gradient magnitude of the rounded-luma grayscale neighbours exceeds 20 or the
original pixel satisfies the skin rule, black otherwise; both carry alpha
255. -/
theorem maskPixel_characterization (w h : Nat) (data : List Pixel) (x y idx : Nat)
    (c : Pixel) (gx gy : Int)
    (hlen : data.length = w * h)
    (hx1 : 1 ≤ x) (hx2 : x < w - 1) (hy1 : 1 ≤ y) (hy2 : y < h - 1)
    (hidx : idx = y * w + x)
    (hc : c = data.getD idx blackPixel)
    (hgx : gx = lumaRound (data.getD (idx + 1) blackPixel) -
      lumaRound (data.getD (idx - 1) blackPixel))
    (hgy : gy = lumaRound (data.getD (idx + w) blackPixel) -
      lumaRound (data.getD (idx - w) blackPixel)) :
    ((processImageToBWMask w h data)[idx]? = some whitePixel ↔
      ((20 : ℝ) < Real.sqrt ((gx : ℝ) ^ 2 + (gy : ℝ) ^ 2) ∨ skinSpec c)) ∧
    ((processImageToBWMask w h data)[idx]? = some blackPixel ↔
      ¬ ((20 : ℝ) < Real.sqrt ((gx : ℝ) ^ 2 + (gy : ℝ) ^ 2) ∨ skinSpec c)) ∧
    whitePixel.a = 255 ∧ blackPixel.a = 255 := by
  subst hidx
  subst hc
  subst hgx
  subst hgy
  have hbound := interior_idx_lt hx2 hy2
  have hw3 : 3 ≤ w := by omega
  have hlt0 : y * w + x < data.length := by omega
  have hlt1 : y * w + x + 1 < data.length := by omega
  have hltm1 : y * w + x - 1 < data.length := by omega
  have hltw : y * w + x + w < data.length := by omega
  have hltmw : y * w + x - w < data.length := by omega
  have hmem : y * w + x ∈ interiorIndices w h :=
    (mem_interiorIndices w h _).2 ⟨x, y, hx1, hx2, hy1, hy2, rfl⟩
  have hout : (processImageToBWMask w h data)[y * w + x]? =
      (data[y * w + x]?).map (maskWrite (data.map grayOf) w (y * w + x)) :=
    foldl_maskStep_mem _ _ _ _ (nodup_interiorIndices w h) _ hmem
  have hdata : data[y * w + x]? = some (data.getD (y * w + x) blackPixel) := by
    rw [List.getD_eq_getElem?_getD, List.getElem?_eq_getElem hlt0]
    rfl
  rw [hdata] at hout
  set c := data.getD (y * w + x) blackPixel with hcdef
  set gx : Int := lumaRound (data.getD (y * w + x + 1) blackPixel) -
      lumaRound (data.getD (y * w + x - 1) blackPixel) with hgxdef
  set gy : Int := lumaRound (data.getD (y * w + x + w) blackPixel) -
      lumaRound (data.getD (y * w + x - w) blackPixel) with hgydef
  have hgrad : gradExceeds (data.map grayOf) w (y * w + x) = true ↔
      (400 : Int) < gx * gx + gy * gy := by
    unfold gradExceeds
    rw [getD_map_grayOf data _ hlt1, getD_map_grayOf data _ hltm1,
      getD_map_grayOf data _ hltw, getD_map_grayOf data _ hltmw]
    rw [hgxdef, hgydef]
    rw [lumaRound_eq_grayOf, lumaRound_eq_grayOf, lumaRound_eq_grayOf, lumaRound_eq_grayOf]
    simp only [decide_eq_true_eq]
  have hcond : (gradExceeds (data.map grayOf) w (y * w + x) || isSkinLike c) = true ↔
      ((20 : ℝ) < Real.sqrt ((gx : ℝ) ^ 2 + (gy : ℝ) ^ 2) ∨ skinSpec c) := by
    rw [Bool.or_eq_true, hgrad, isSkinLike_iff, sqrt_gt_20_iff]
  have hmw : ∀ p : Pixel,
      (maskWrite (List.map grayOf data) w (y * w + x) p = whitePixel ↔
        (gradExceeds (List.map grayOf data) w (y * w + x) || isSkinLike p) = true) ∧
      (maskWrite (List.map grayOf data) w (y * w + x) p = blackPixel ↔
        ¬ (gradExceeds (List.map grayOf data) w (y * w + x) || isSkinLike p) = true) := by
    intro p
    unfold maskWrite
    cases hb : (gradExceeds (List.map grayOf data) w (y * w + x) || isSkinLike p) <;>
      simp [whitePixel, blackPixel]
  have houtc : (processImageToBWMask w h data)[y * w + x]? =
      some (maskWrite (List.map grayOf data) w (y * w + x) c) := hout
  refine ⟨?_, ?_, rfl, rfl⟩
  · rw [houtc, ← hcond, ← (hmw c).1]
    exact ⟨fun hsome => Option.some.inj hsome, fun he => he ▸ rfl⟩
  · rw [houtc, ← hcond, ← (hmw c).2]
    exact ⟨fun hsome => Option.some.inj hsome, fun he => he ▸ rfl⟩

/-- C9: `processImageToBWMask` never writes to border pixels — each pixel in
row 0, row `h-1`, column 0 or column `w-1` holds exactly its original R, G, B
and alpha values after the pass. -/
theorem edge_skin_mask_border_untouched (w h : Nat) (data : List Pixel) (x y : Nat)
    (hx : x < w) (hy : y < h)
    (hborder : x = 0 ∨ x = w - 1 ∨ y = 0 ∨ y = h - 1) :
    (processImageToBWMask w h data)[y * w + x]? = data[y * w + x]? := by
  apply foldl_maskStep_not_mem
  intro hmem
  obtain ⟨x', y', hx1, hx2, hy1, hy2, he⟩ := (mem_interiorIndices w h _).1 hmem
  have hxy := interior_encode_eq (show x' < w by omega) hx he.symm
  omega

/-- Witness for C9: the top-left corner of a 3×3 raster is untouched. -/
theorem edge_skin_mask_border_untouched_witness :
    (processImageToBWMask 3 3 (List.replicate 9 ⟨9, 8, 7, 6⟩))[0]? = some ⟨9, 8, 7, 6⟩ := by
  have h := edge_skin_mask_border_untouched 3 3 (List.replicate 9 ⟨9, 8, 7, 6⟩) 0 0
    (by decide) (by decide) (Or.inl rfl)
  rw [show (0 : Nat) * 3 + 0 = 0 from rfl] at h
  rw [h]
  decide

/-- Reading any in-range position of a uniform raster gives the uniform pixel. -/
theorem getD_replicate_lt (n j : Nat) (p d : Pixel) (hj : j < n) :
    (List.replicate n p).getD j d = p := by
  rw [List.getD_eq_getElem?_getD, List.getElem?_replicate]
  simp [hj]

/-- Counterexample to C3 as stated: a uniform non-skin colour (pure blue)
produces a mask that is NOT all black — border pixels keep the original
colour, whose blue channel is 255. -/
theorem edge_skin_uniform_not_all_black :
    isSkinLike ⟨0, 0, 255, 255⟩ = false ∧
      ¬ (∀ p ∈ processImageToBWMask 3 3 (List.replicate 9 ⟨0, 0, 255, 255⟩),
          p.r = 0 ∧ p.g = 0 ∧ p.b = 0) := by decide

/-- C3 (amended): on a uniform-colour raster whose colour fails the skin rule,
every interior pixel of the mask is black (border pixels are left untouched and
keep the uniform colour). -/
theorem edge_skin_uniform_interior_black (w h : Nat) (p : Pixel)
    (hskin : isSkinLike p = false) (x y : Nat)
    (hx1 : 1 ≤ x) (hx2 : x < w - 1) (hy1 : 1 ≤ y) (hy2 : y < h - 1) :
    (processImageToBWMask w h (List.replicate (w * h) p))[y * w + x]? = some blackPixel := by
  have hbound := interior_idx_lt hx2 hy2
  have hmain := maskPixel_characterization w h (List.replicate (w * h) p) x y (y * w + x) p 0 0
    (List.length_replicate _ _) hx1 hx2 hy1 hy2 rfl
    (by rw [getD_replicate_lt _ _ _ _ (by omega)])
    (by rw [getD_replicate_lt _ _ _ _ (by omega), getD_replicate_lt _ _ _ _ (by omega)]; ring)
    (by rw [getD_replicate_lt _ _ _ _ (by omega), getD_replicate_lt _ _ _ _ (by omega)]; ring)
  refine hmain.2.1.2 ?_
  rintro (hsqrt | hskin')
  · rw [show ((0 : Int) : ℝ) ^ 2 + ((0 : Int) : ℝ) ^ 2 = 0 by norm_num, Real.sqrt_zero] at hsqrt
    norm_num at hsqrt
  · rw [← isSkinLike_iff] at hskin'
    rw [hskin] at hskin'
    exact Bool.false_ne_true hskin'

/-- Witness for amended C3: the interior pixel of a uniform blue 3×3 raster is
black. -/
theorem edge_skin_uniform_interior_black_witness :
    (processImageToBWMask 3 3 (List.replicate 9 ⟨0, 0, 255, 255⟩))[4]? = some blackPixel :=
  edge_skin_uniform_interior_black 3 3 ⟨0, 0, 255, 255⟩ (by decide) 1 1
    (by decide) (by decide) (by decide) (by decide)

/-- A detection record as consumed by `renderBoundingBoxes`
(App.jsx lines 357-390).  Every field a JS object may or may not carry is an
`Option`; an absent field (JS `undefined`) is `none`. -/
structure Detection where
  «class» : Option String
  confidence : Option ℚ
  score : Option ℚ
  bbox : Option (List ℚ)
  box : Option (List ℚ)
  x1 : Option ℚ
  y1 : Option ℚ
  x2 : Option ℚ
  y2 : Option ℚ
deriving DecidableEq, Repr

/-- `const bbox = det.bbox || det.box || [det.x1, det.y1, det.x2, det.y2]`
(App.jsx line 361).  A present array field is always truthy in JS (even when
empty), so the fallbacks fire only when the field is absent or null; the last
fallback is a four-element array whose entries may each be `undefined`. -/
def resolvedBox (d : Detection) : List (Option ℚ) :=
  match d.bbox with
  | some l => l.map some
  | none =>
    match d.box with
    | some l => l.map some
    | none => [d.x1, d.y1, d.x2, d.y2]

/-- The percentage-based overlay rectangle computed by the renderer
(App.jsx lines 372-375); a field is `none` when the JS arithmetic would
involve `undefined` (yielding `NaN`). -/
structure OverlayRect where
  left : Option ℚ
  top : Option ℚ
  width : Option ℚ
  height : Option ℚ
deriving DecidableEq, Repr

/-- Strict binary arithmetic on possibly-`undefined` operands. -/
def omap2 (f : ℚ → ℚ → ℚ) : Option ℚ → Option ℚ → Option ℚ
  | some a, some b => some (f a b)
  | _, _ => none

/-- Body of the `detections.map` callback (App.jsx lines 358-389): `null`
(here `none`) when the resolved box has fewer than four coordinates
(`if (!bbox || bbox.length < 4) return null`, line 362 — the resolved box is
always an array, so only the length test can fire), otherwise the overlay
rectangle. -/
def renderDetection (d : Detection) : Option OverlayRect :=
  if (resolvedBox d).length < 4 then none
  else
    some
      { left := ((resolvedBox d).getD 0 none).map fun v => v / 640 * 100
        top := ((resolvedBox d).getD 1 none).map fun v => v / 640 * 100
        width := omap2 (fun a b => (a - b) / 640 * 100)
          ((resolvedBox d).getD 2 none) ((resolvedBox d).getD 0 none)
        height := omap2 (fun a b => (a - b) / 640 * 100)
          ((resolvedBox d).getD 3 none) ((resolvedBox d).getD 1 none) }

/-- `renderBoundingBoxes` (App.jsx lines 357-390): map the callback over the
current detection list. -/
def renderBoundingBoxes (ds : List Detection) : List (Option OverlayRect) :=
  ds.map renderDetection

/-- C8: the overlay renderer yields `null` (no rectangle, no throw) exactly
for the detections whose resolved box has fewer than four coordinates, and a
rectangle for every detection whose box has at least four. -/
theorem render_skips_short_boxes (ds : List Detection) (i : Nat) (d : Detection)
    (hd : ds[i]? = some d) :
    (renderBoundingBoxes ds)[i]? = some (renderDetection d) ∧
      (renderDetection d = none ↔ (resolvedBox d).length < 4) ∧
      (4 ≤ (resolvedBox d).length → ∃ r, renderDetection d = some r) := by
  refine ⟨?_, ?_, ?_⟩
  · rw [renderBoundingBoxes, List.getElem?_map, hd]
    rfl
  · unfold renderDetection
    by_cases hlen : (resolvedBox d).length < 4
    · simp [hlen]
    · simp [hlen]
  · intro h4
    unfold renderDetection
    rw [if_neg (by omega)]
    exact ⟨_, rfl⟩

/-- Witness for C8: a detection with a 3-coordinate bbox is skipped, one with
4 coordinates is rendered. -/
theorem render_skips_short_boxes_witness :
    (renderBoundingBoxes [⟨some "rock", some 1, none, some [100, 100, 300], none,
        none, none, none, none⟩])[0]? =
      some (renderDetection ⟨some "rock", some 1, none, some [100, 100, 300], none,
        none, none, none, none⟩) ∧
      (renderDetection ⟨some "rock", some 1, none, some [100, 100, 300], none,
        none, none, none, none⟩ = none ↔
        (resolvedBox ⟨some "rock", some 1, none, some [100, 100, 300], none,
          none, none, none, none⟩).length < 4) := by
  have h := render_skips_short_boxes [⟨some "rock", some 1, none, some [100, 100, 300], none,
    none, none, none, none⟩] 0 ⟨some "rock", some 1, none, some [100, 100, 300], none,
    none, none, none, none⟩ rfl
  exact ⟨h.1, h.2.1⟩

/-- C10: when both `bbox` and `box` are absent, the fallback
`[det.x1, det.y1, det.x2, det.y2]` always has length 4 — even when all four
coordinate fields are absent — so the length guard never skips such a
detection and it is still rendered. -/
theorem render_fallback_always_rendered (d : Detection)
    (hb : d.bbox = none) (hx : d.box = none) :
    resolvedBox d = [d.x1, d.y1, d.x2, d.y2] ∧ (resolvedBox d).length = 4 ∧
      ∃ r, renderDetection d = some r := by
  have hres : resolvedBox d = [d.x1, d.y1, d.x2, d.y2] := by
    unfold resolvedBox
    rw [hb, hx]
  have hlen : (resolvedBox d).length = 4 := by
    rw [hres]
    rfl
  refine ⟨hres, hlen, ?_⟩
  unfold renderDetection
  rw [if_neg (by omega)]
  exact ⟨_, rfl⟩

/-- Witness for C10: a detection with no box information at all is rendered,
with all four rectangle coordinates undefined. -/
theorem render_fallback_always_rendered_witness :
    (∃ r, renderDetection ⟨none, none, none, none, none, none, none, none, none⟩ = some r) ∧
      renderDetection ⟨none, none, none, none, none, none, none, none, none⟩ =
        some ⟨none, none, none, none⟩ :=
  ⟨(render_fallback_always_rendered ⟨none, none, none, none, none, none, none, none, none⟩
    rfl rfl).2.2, by decide⟩

/-- The two pieces of React state touched by the detection client:
`detections` and `error`. -/
structure UiState where
  detections : List Detection
  error : Option String
deriving DecidableEq, Repr

/-- How a detection request can end, as distinguished by the `try` block
(App.jsx lines 199-211): a 2xx response with a parsed body whose `detections`
field is present (`some`) or absent/falsy (`none`); a 2xx response whose body
fails to parse (`response.json()` rejects); a non-2xx status; a network
failure of `fetch` itself. -/
inductive FetchOutcome where
  | ok (dets : Option (List Detection))
  | badJson (msg : String)
  | httpError
  | netError (msg : String)
deriving DecidableEq, Repr

/-- State update performed by `captureAndDetect`'s response handling and its
`catch` (App.jsx lines 199-214): on success store `result.detections || []`
and clear the error; `!response.ok` throws `Error('Detection failed')`; every
thrown error only sets the error message. -/
def captureResponseUpdate (s : UiState) : FetchOutcome → UiState
  | .ok dets => { detections := dets.getD [], error := none }
  | .badJson m => { s with error := some m }
  | .httpError => { s with error := some "Detection failed" }
  | .netError m => { s with error := some m }

/-- `handleImageUpload` of the main (RPS) variant (App.jsx lines 291-348):
`setError(null)` runs before the request, the detection list is not touched
until the response arrives, and the response handling matches
`captureResponseUpdate` except that success does not clear the error again. -/
def handleImageUploadV1 (s : UiState) (r : FetchOutcome) : UiState :=
  let s1 : UiState := { s with error := none }
  match r with
  | .ok dets => { s1 with detections := dets.getD [] }
  | .badJson m => { s1 with error := some m }
  | .httpError => { s1 with error := some "Detection failed" }
  | .netError m => { s1 with error := some m }

/-- `handleImageUpload` of the X-ray variant (App.jsx lines 756-786):
`setError(null)` AND `setDetections([])` run before the request
(line 762), then the same response handling. -/
def handleImageUploadV2 (_s : UiState) (r : FetchOutcome) : UiState :=
  let s1 : UiState := { detections := [], error := none }
  match r with
  | .ok dets => { s1 with detections := dets.getD [] }
  | .badJson m => { s1 with error := some m }
  | .httpError => { s1 with error := some "Detection failed" }
  | .netError m => { s1 with error := some m }

/-- Counterexample to C4 as stated: in the upload handler at App.jsx lines
756-786 the stored detection list is cleared speculatively before the request,
so after a non-2xx failure the previous list is gone rather than unchanged. -/
theorem upload_clears_list_before_request :
    (handleImageUploadV2
        ⟨[⟨some "rock", some 1, none, some [100, 100, 300, 300], none,
          none, none, none, none⟩], none⟩ .httpError).detections ≠
      [⟨some "rock", some 1, none, some [100, 100, 300, 300], none,
        none, none, none, none⟩] ∧
    (handleImageUploadV2
        ⟨[⟨some "rock", some 1, none, some [100, 100, 300, 300], none,
          none, none, none, none⟩], none⟩ .httpError).error =
      some "Detection failed" := by
  constructor
  · decide
  · rfl

/-- C4 (amended): on any failure `captureAndDetect` sets the uniform message
('Detection failed' for non-2xx) and leaves the stored detection list
unchanged, replacing it only on a successful response; the upload handler at
lines 756-786, by contrast, clears the list at the start of each upload —
before the request — so a failed upload leaves an empty list, not the prior
one. -/
theorem detection_failure_keeps_capture_list (s : UiState) :
    ((captureResponseUpdate s .httpError).detections = s.detections ∧
      (captureResponseUpdate s .httpError).error = some "Detection failed") ∧
    (∀ m, (captureResponseUpdate s (.netError m)).detections = s.detections) ∧
    (∀ m, (captureResponseUpdate s (.badJson m)).detections = s.detections) ∧
    (∀ o, (captureResponseUpdate s (.ok o)).detections = o.getD []) ∧
    ((handleImageUploadV2 s .httpError).detections = [] ∧
      (handleImageUploadV2 s .httpError).error = some "Detection failed") :=
  ⟨⟨rfl, rfl⟩, fun _ => rfl, fun _ => rfl, fun _ => rfl, rfl, rfl⟩

/-- Counterexample to C7 as stated: a successful (2xx) response with an
unparseable body does NOT substitute the empty list — the parse exception is
caught and the previous detection list is left in place. -/
theorem parse_failure_keeps_previous_list :
    (captureResponseUpdate
        ⟨[⟨some "rock", some 1, none, some [100, 100, 300, 300], none,
          none, none, none, none⟩], none⟩
        (.badJson "Unexpected token")).detections =
      [⟨some "rock", some 1, none, some [100, 100, 300, 300], none,
        none, none, none, none⟩] ∧
    [⟨some "rock", some 1, none, some [100, 100, 300, 300], none,
      none, none, none, none⟩] ≠ ([] : List Detection) := by
  constructor
  · rfl
  · decide

/-- C7 (amended): after a successful response whose body parses, the stored
list is `result.detections || []` — the parsed field when present, the empty
list when absent or falsy — so it is always a real list; a 2xx response with
an unparseable body instead leaves the previous list untouched (the exception
path). -/
theorem success_stores_parsed_detections (s : UiState) (o : Option (List Detection)) :
    (captureResponseUpdate s (.ok o)).detections = o.getD [] ∧
    (handleImageUploadV1 s (.ok o)).detections = o.getD [] ∧
    ((captureResponseUpdate s (.ok o)).detections = [] ∨
      ∃ l, o = some l ∧ (captureResponseUpdate s (.ok o)).detections = l) ∧
    (∀ m, (captureResponseUpdate s (.badJson m)).detections = s.detections) ∧
    (∀ m, (handleImageUploadV1 s (.badJson m)).detections = s.detections) := by
  refine ⟨rfl, rfl, ?_, fun _ => rfl, fun _ => rfl⟩
  cases o with
  | none => exact Or.inl rfl
  | some l => exact Or.inr ⟨l, rfl, rfl⟩

/-- Live-mode session state relevant to the in-flight guard: the value of
`processingRef.current`, the number of invocations of `captureAndDetect` that
have passed the guard but not yet issued their `fetch`, and the number of
unresolved `fetch` requests. -/
structure LiveSession where
  processing : Bool
  passed : Nat
  inflight : Nat
deriving DecidableEq, Repr

/-- Initial live-mode state: guard clear, nothing running. -/
def LiveSession.init : LiveSession := ⟨false, 0, 0⟩

/-- A timer fires and calls `captureAndDetect`: the synchronous prologue
checks `processingRef.current` and returns immediately when it is set
(App.jsx line 147), otherwise sets it (line 153) and proceeds.  The check and
the set run in one JS event-loop turn, with no await between them. -/
def invokeCapture (s : LiveSession) : LiveSession :=
  if s.processing then s
  else { processing := true, passed := s.passed + 1, inflight := s.inflight }

/-- The invocation that holds the guard reaches its `fetch` (App.jsx
line 199). -/
def issueFetch (s : LiveSession) : LiveSession :=
  if 0 < s.passed then { s with passed := s.passed - 1, inflight := s.inflight + 1 }
  else s

/-- The pending `fetch` resolves (success or failure) and the `finally` block
clears `processingRef.current` (App.jsx lines 212-214). -/
def resolveFetch (s : LiveSession) : LiveSession :=
  if 0 < s.inflight then
    { processing := false, passed := s.passed, inflight := s.inflight - 1 }
  else s

/-- The invocation that holds the guard fails before issuing its `fetch`
(e.g. `toBlob` rejects); the `finally` block still clears the guard. -/
def abortBeforeFetch (s : LiveSession) : LiveSession :=
  if 0 < s.passed then
    { processing := false, passed := s.passed - 1, inflight := s.inflight }
  else s

/-- States reachable from the initial live-mode state under any interleaving
of timer firings, fetch issues and fetch resolutions. -/
inductive LiveReachable : LiveSession → Prop where
  | init : LiveReachable LiveSession.init
  | invoke {s : LiveSession} : LiveReachable s → LiveReachable (invokeCapture s)
  | issue {s : LiveSession} : LiveReachable s → LiveReachable (issueFetch s)
  | resolve {s : LiveSession} : LiveReachable s → LiveReachable (resolveFetch s)
  | abort {s : LiveSession} : LiveReachable s → LiveReachable (abortBeforeFetch s)

/-- C5: in every reachable live-mode state the guard counts exactly the one
active cycle (so at most one request is in flight), and while the guard is
set any overlapping invocation of `captureAndDetect` is an immediate no-op. -/
theorem live_mode_single_inflight (s : LiveSession) (h : LiveReachable s) :
    (s.passed + s.inflight = if s.processing then 1 else 0) ∧
      s.inflight ≤ 1 ∧ (s.processing = true → invokeCapture s = s) := by
  have hinv : s.passed + s.inflight = if s.processing then 1 else 0 := by
    induction h with
    | init => rfl
    | @invoke t _ ih =>
      unfold invokeCapture
      by_cases hp : t.processing = true <;> simp [hp] at ih ⊢ <;> omega
    | @issue t _ ih =>
      unfold issueFetch
      by_cases hq : 0 < t.passed
      · by_cases hp : t.processing = true <;> simp [hp, hq] at ih ⊢ <;> omega
      · simp [hq]
        exact ih
    | @resolve t _ ih =>
      unfold resolveFetch
      by_cases hq : 0 < t.inflight
      · by_cases hp : t.processing = true <;> simp [hp, hq] at ih ⊢ <;> omega
      · simp [hq]
        exact ih
    | @abort t _ ih =>
      unfold abortBeforeFetch
      by_cases hq : 0 < t.passed
      · by_cases hp : t.processing = true <;> simp [hp, hq] at ih ⊢ <;> omega
      · simp [hq]
        exact ih
  refine ⟨hinv, ?_, ?_⟩
  · cases hq : s.processing with
    | true => rw [hq] at hinv; simp at hinv; omega
    | false => rw [hq] at hinv; simp at hinv; omega
  · intro hp
    unfold invokeCapture
    rw [hp]
    simp

/-- Witness for C5: the state right after one timer firing (guard set, one
cycle active, nothing in flight yet) satisfies the invariant. -/
theorem live_mode_single_inflight_witness :
    ((invokeCapture LiveSession.init).passed + (invokeCapture LiveSession.init).inflight =
      if (invokeCapture LiveSession.init).processing then 1 else 0) ∧
      (invokeCapture LiveSession.init).inflight ≤ 1 ∧
      ((invokeCapture LiveSession.init).processing = true →
        invokeCapture (invokeCapture LiveSession.init) = invokeCapture LiveSession.init) :=
  live_mode_single_inflight (invokeCapture LiveSession.init)
    (LiveReachable.invoke LiveReachable.init)
